import Mathlib

/-!
Verification of the swipe-gallery core of the Lotus Hotel front-end:
the gesture classifier (`handleDragEnd` in SwipeCard.tsx), the
saved-items store (`savedItemsManager` in SwipeGallery.tsx), and the
gallery cursor (the `setCurrentIndex` updater and `handleReset` in
SwipeGallery.tsx), shallowly embedded as pure Lean functions.
-/

/-- The category union type of SwipeCardData (SwipeCard.tsx:9). -/
inductive CardType
| room
| restaurant
| experience
| facility
| event
deriving DecidableEq, BEq

/-- An amenity entry (SwipeCard.tsx:15). -/
structure Amenity where
  icon : String
  name : String
deriving DecidableEq, BEq

/-- The card record, from the SwipeCardData interface (SwipeCard.tsx:7-20).
Optional fields of the interface become Option fields. -/
structure SwipeCardData where
  id : String
  type : CardType
  title : String
  subtitle : Option String
  caption : String
  image : String
  price : Option Nat
  amenities : Option (List Amenity)
  tags : Option (List String)
  roomId : Option String
  menuItemId : Option String
  experienceId : Option String
deriving DecidableEq

/-- The three possible outcomes of classifying a final drag sample
(the spec calls them CommitRight, CommitLeft, Cancel). -/
inductive Decision
| commitRight
| commitLeft
| cancel
deriving DecidableEq

/-- Distance threshold constant (SwipeCard.tsx:33). -/
def SWIPE_THRESHOLD : ℚ := 100

/-- Velocity threshold constant (SwipeCard.tsx:34). -/
def SWIPE_VELOCITY : ℚ := 500

/-- The observable outcome of `handleDragEnd`: which callback was invoked
and the motion values it set. `x` and `y` are the values written by
`x.set` / `y.set`; when a branch does not write `y`, it keeps its prior
value. -/
structure DragOutcome where
  decision : Decision
  calledOnSwipeRight : Bool
  calledOnSwipeLeft : Bool
  x : ℚ
  y : ℚ
deriving DecidableEq

/-- Embedding of `handleDragEnd` (SwipeCard.tsx:71-93). `offset` and
`velocity` are `info.offset.x` and `info.velocity.x`; `y0` is the
current value of the `y` motion value (only the cancel branch writes it).
The commit branch sets x to 500 or -500 and invokes exactly one of the
two swipe callbacks; the cancel branch springs both coordinates back
to 0 and invokes neither. -/
def handleDragEnd (offset velocity y0 : ℚ) : DragOutcome :=
  if |velocity| > SWIPE_VELOCITY ∨ |offset| > SWIPE_THRESHOLD then
    if offset > 0 ∨ velocity > 0 then
      ⟨Decision.commitRight, true, false, 500, y0⟩
    else
      ⟨Decision.commitLeft, false, true, -500, y0⟩
  else
    ⟨Decision.cancel, false, false, 0, 0⟩

/-- The pure decision function the spec names `classify`: the decision
component of `handleDragEnd`. -/
def classify (offset velocity : ℚ) : Decision :=
  (handleDragEnd offset velocity 0).decision

/-- C1: every final drag sample with |offset| ≤ 100 and |velocity| ≤ 500
is classified Cancel: neither swipe callback is invoked and both motion
coordinates are reset to 0. -/
theorem classify_small_sample_cancels (offset velocity y0 : ℚ)
    (hoff : |offset| ≤ SWIPE_THRESHOLD) (hvel : |velocity| ≤ SWIPE_VELOCITY) :
    handleDragEnd offset velocity y0 =
      ⟨Decision.cancel, false, false, 0, 0⟩ ∧
    classify offset velocity = Decision.cancel := by
  have hcond : ¬ (|velocity| > SWIPE_VELOCITY ∨ |offset| > SWIPE_THRESHOLD) := by
    push_neg
    exact ⟨hvel, hoff⟩
  constructor
  · unfold handleDragEnd
    rw [if_neg hcond]
  · unfold classify handleDragEnd
    rw [if_neg hcond]

/-- Witness for C1 at offset = 100, velocity = -500, y0 = 7 (both on the
threshold boundary, still a cancel). -/
theorem classify_small_sample_cancels_witness :
    handleDragEnd 100 (-500) 7 = ⟨Decision.cancel, false, false, 0, 0⟩ ∧
    classify 100 (-500) = Decision.cancel :=
  classify_small_sample_cancels 100 (-500) 7 (by norm_num [SWIPE_THRESHOLD])
    (by norm_num [SWIPE_VELOCITY])

/-- C2: in the commit regime (|velocity| > 500 or |offset| > 100) the
classifier returns CommitRight exactly when offset > 0 or velocity > 0
and CommitLeft otherwise; in particular (10, 600) commits right,
(-10, -600) commits left, and a positive velocity on a zero or negative
offset still commits right. -/
theorem classify_commit_direction :
    (∀ offset velocity : ℚ,
      (|velocity| > SWIPE_VELOCITY ∨ |offset| > SWIPE_THRESHOLD) →
        (classify offset velocity = Decision.commitRight ↔
          (offset > 0 ∨ velocity > 0)) ∧
        (classify offset velocity = Decision.commitLeft ↔
          ¬ (offset > 0 ∨ velocity > 0))) ∧
    classify 10 600 = Decision.commitRight ∧
    classify (-10) (-600) = Decision.commitLeft ∧
    (∀ offset velocity : ℚ, offset ≤ 0 → 0 < velocity →
      (|velocity| > SWIPE_VELOCITY ∨ |offset| > SWIPE_THRESHOLD) →
      classify offset velocity = Decision.commitRight) := by
  have hmain : ∀ offset velocity : ℚ,
      (|velocity| > SWIPE_VELOCITY ∨ |offset| > SWIPE_THRESHOLD) →
        (classify offset velocity = Decision.commitRight ↔
          (offset > 0 ∨ velocity > 0)) ∧
        (classify offset velocity = Decision.commitLeft ↔
          ¬ (offset > 0 ∨ velocity > 0)) := by
    intro offset velocity hcond
    unfold classify handleDragEnd
    rw [if_pos hcond]
    by_cases hdir : offset > 0 ∨ velocity > 0
    · rw [if_pos hdir]
      constructor
      · simp [hdir]
      · simp [hdir]
    · rw [if_neg hdir]
      constructor
      · simp [hdir]
      · simp [hdir]
  refine ⟨hmain, ?_, ?_, ?_⟩
  · exact (hmain 10 600 (by norm_num [SWIPE_VELOCITY])).1.mpr (by norm_num)
  · exact (hmain (-10) (-600) (by norm_num [SWIPE_VELOCITY])).2.mpr (by norm_num)
  · intro offset velocity hoff hvel hcond
    exact (hmain offset velocity hcond).1.mpr (Or.inr hvel)

/-- The content of the `lotus_saved_items` localStorage slot: absent key,
content on which `JSON.parse` throws, or a parseable serialized list of
cards. `JSON.stringify` of a card list always yields parseable content,
so every write produces a `good` blob. -/
inductive Blob
| missing
| corrupt
| good (items : List SwipeCardData)
deriving DecidableEq

/-- The storage world the manager runs against. `accessThrows` models a
browser that denies storage access: then both `localStorage.getItem` and
`localStorage.setItem` throw. -/
structure Store where
  blob : Blob
  accessThrows : Bool
deriving DecidableEq

namespace savedItemsManager

/-- Embedding of `savedItemsManager.getSavedItems` (SwipeGallery.tsx:27-34):
read the slot, parse it, and on a missing key or any thrown error return
the empty list. Total: no failure escapes to the caller. -/
def getSavedItems (st : Store) : List SwipeCardData :=
  if st.accessThrows then []
  else
    match st.blob with
    | Blob.missing => []
    | Blob.corrupt => []
    | Blob.good items => items

/-- Embedding of `savedItemsManager.saveItem` (SwipeGallery.tsx:36-48):
re-read the saved list (`getSavedItems` catches its own errors), append
and re-serialize when no entry shares the identifier, return false as a
no-op when one does; a throwing `setItem` is caught and yields false
with the storage unchanged. -/
def saveItem (item : SwipeCardData) (st : Store) : Bool × Store :=
  let saved := getSavedItems st
  if (saved.find? (fun s => s.id == item.id)).isNone then
    if st.accessThrows then (false, st)
    else (true, { st with blob := Blob.good (saved ++ [item]) })
  else (false, st)

/-- Embedding of `savedItemsManager.removeItem` (SwipeGallery.tsx:50-59):
re-read the saved list, filter out the identifier, re-serialize, and
return true; only a throwing `setItem` is caught and yields false with
the storage unchanged. -/
def removeItem (itemId : String) (st : Store) : Bool × Store :=
  let saved := getSavedItems st
  let updated := saved.filter (fun s => s.id != itemId)
  if st.accessThrows then (false, st)
  else (true, { st with blob := Blob.good updated })

/-- Embedding of `savedItemsManager.isSaved` (SwipeGallery.tsx:61-64). -/
def isSaved (itemId : String) (st : Store) : Bool :=
  (getSavedItems st).any (fun s => s.id == itemId)

/-- Embedding of `savedItemsManager.getSavedByType` (SwipeGallery.tsx:66-69). -/
def getSavedByType (ty : CardType) (st : Store) : List SwipeCardData :=
  (getSavedItems st).filter (fun s => s.type == ty)

end savedItemsManager

/-- Identifiers of the stored entries are pairwise distinct. -/
def distinctIds (l : List SwipeCardData) : Prop :=
  l.Pairwise (fun a b => a.id ≠ b.id)

/-- The cursor state of a SwipeGallery instance: the `currentIndex` React
state (SwipeGallery.tsx:83) together with the fixed item count
`items.length`. -/
structure GalleryCursor where
  currentIndex : ℕ
  total : ℕ
deriving DecidableEq

/-- Embedding of the deferred `setCurrentIndex` updater shared by
`handleSwipeLeft` and `handleSwipeRight` (SwipeGallery.tsx:124-130 and
180-186): when the previous index is at or past `total - 1` it shows the
"seen all items" toast and wraps to 0, otherwise it increments. Returns
the new cursor and whether the exhaustion toast was shown. -/
def GalleryCursor.advance (c : GalleryCursor) : GalleryCursor × Bool :=
  if c.currentIndex ≥ c.total - 1 then ({ c with currentIndex := 0 }, true)
  else ({ c with currentIndex := c.currentIndex + 1 }, false)

/-- Embedding of `handleReset` (SwipeGallery.tsx:199-202): sets the index
to 0 unconditionally. -/
def GalleryCursor.reset (c : GalleryCursor) : GalleryCursor :=
  { c with currentIndex := 0 }

/-- Run `advance` the given number of times, counting how many of the
calls showed the exhaustion toast. -/
def advanceRun : GalleryCursor → ℕ → GalleryCursor × ℕ
  | c, 0 => (c, 0)
  | c, n + 1 =>
    let r := c.advance
    let rest := advanceRun r.1 n
    (rest.1, (if r.2 then 1 else 0) + rest.2)

/-- Embedding of the progress computation (SwipeGallery.tsx:204):
`((currentIndex + 1) / items.length) * 100`. -/
def progress (c : GalleryCursor) : ℚ :=
  ((c.currentIndex : ℚ) + 1) / (c.total : ℚ) * 100

/-- The progress value before the percent scaling: `(currentIndex + 1) / total`. -/
def progressFrac (c : GalleryCursor) : ℚ :=
  ((c.currentIndex : ℚ) + 1) / (c.total : ℚ)

/-- The discrete events that touch a gallery instance's settle-delay
timers: a commit decision (which schedules the deferred advance), the
unmount of the component, and the expiry of one scheduled timer. -/
inductive GEvent
| commit
| unmountEvent
| timerFire
deriving DecidableEq

/-- The timer-relevant state of a mounted gallery: whether it is still
mounted, how many settle-delay callbacks are scheduled but not yet
fired, whether the keydown listener is installed, and how many times
the deferred advance updater has executed. -/
structure GalleryWorld where
  mounted : Bool
  pendingTimers : ℕ
  keydownListener : Bool
  advanceExecuted : ℕ
deriving DecidableEq

/-- One event step, from the component's effect structure. `commit`:
both swipe handlers end in `setTimeout(..., 300)` whose handle is
discarded (SwipeGallery.tsx:123-131, 179-187). `unmountEvent`: the only
effect cleanup in the component removes the keydown listener
(SwipeGallery.tsx:117); no `clearTimeout` exists anywhere, so pending
timers survive. `timerFire`: a scheduled callback runs its
`setCurrentIndex` updater unconditionally, with no mounted-guard in the
callback body. -/
def stepEvent (w : GalleryWorld) : GEvent → GalleryWorld
  | GEvent.commit => { w with pendingTimers := w.pendingTimers + 1 }
  | GEvent.unmountEvent => { w with mounted := false, keydownListener := false }
  | GEvent.timerFire =>
    if w.pendingTimers > 0 then
      { w with pendingTimers := w.pendingTimers - 1,
               advanceExecuted := w.advanceExecuted + 1 }
    else w

/-- Run a sequence of events from a starting world. -/
def runEvents (w : GalleryWorld) (es : List GEvent) : GalleryWorld :=
  es.foldl stepEvent w

/-- A freshly mounted gallery: keydown listener installed, no pending
timers, no advances executed. -/
def mountedWorld : GalleryWorld :=
  ⟨true, 0, true, 0⟩

open savedItemsManager

/-- A sample card used to instantiate proved statements. -/
def cardA : SwipeCardData :=
  ⟨"deluxe-room-1", CardType.room, "Deluxe Room", none, "A quiet room", "room.jpg",
   some 4500, none, none, some "r1", none, none⟩

lemma find?_id_eq_none {l : List SwipeCardData} {i : String}
    (h : ∀ x ∈ l, x.id ≠ i) :
    l.find? (fun s => s.id == i) = none := by
  rw [List.find?_eq_none]
  intro x hx
  simp only [beq_iff_eq]
  exact h x hx

lemma find?_id_ne_none {l : List SwipeCardData} {i : String}
    (h : ∃ x ∈ l, x.id = i) :
    l.find? (fun s => s.id == i) ≠ none := by
  obtain ⟨x, hxl, hxi⟩ := h
  intro hnone
  have := List.find?_eq_none.mp hnone x hxl
  simp [beq_iff_eq] at this
  exact this hxi

/-- C3: from the empty store, saving a card returns true and makes the
saved list a singleton; saving a second card with the same identifier
returns false and changes nothing. In general, on a store whose entries
have pairwise-distinct identifiers, `saveItem` appends and returns true
exactly when no entry shares the identifier (preserving distinctness),
and is a false-returning no-op when one does. -/
theorem saveItem_dedup :
    (∀ c c' : SwipeCardData, c'.id = c.id →
      (saveItem c ⟨Blob.missing, false⟩).1 = true ∧
      getSavedItems (saveItem c ⟨Blob.missing, false⟩).2 = [c] ∧
      (saveItem c' (saveItem c ⟨Blob.missing, false⟩).2).1 = false ∧
      (saveItem c' (saveItem c ⟨Blob.missing, false⟩).2).2 =
        (saveItem c ⟨Blob.missing, false⟩).2) ∧
    (∀ (c : SwipeCardData) (l : List SwipeCardData), distinctIds l →
      ((∀ x ∈ l, x.id ≠ c.id) →
        saveItem c ⟨Blob.good l, false⟩ = (true, ⟨Blob.good (l ++ [c]), false⟩) ∧
        distinctIds (l ++ [c])) ∧
      ((∃ x ∈ l, x.id = c.id) →
        saveItem c ⟨Blob.good l, false⟩ = (false, ⟨Blob.good l, false⟩))) := by
  constructor
  · intro c c' hid
    have h1 : saveItem c ⟨Blob.missing, false⟩ = (true, ⟨Blob.good [c], false⟩) := by
      simp [saveItem, getSavedItems]
    rw [h1]
    refine ⟨rfl, by simp [getSavedItems], ?_, ?_⟩
    · simp [saveItem, getSavedItems, hid]
    · simp [saveItem, getSavedItems, hid]
  · intro c l hdist
    constructor
    · intro habs
      have hfind := find?_id_eq_none habs
      constructor
      · simp [saveItem, getSavedItems, hfind]
      · rw [distinctIds, List.pairwise_append]
        refine ⟨hdist, List.pairwise_singleton _ _, ?_⟩
        intro a ha b hb
        rw [List.mem_singleton] at hb
        subst hb
        exact habs a ha
    · intro hpres
      have hfind := find?_id_ne_none hpres
      simp [saveItem, getSavedItems, Option.isNone_iff_eq_none, hfind]

/-- Witness for C3 at the sample card from the empty store. -/
theorem saveItem_dedup_witness :
    (saveItem cardA ⟨Blob.missing, false⟩).1 = true ∧
    getSavedItems (saveItem cardA ⟨Blob.missing, false⟩).2 = [cardA] ∧
    (saveItem cardA (saveItem cardA ⟨Blob.missing, false⟩).2).1 = false ∧
    (saveItem cardA (saveItem cardA ⟨Blob.missing, false⟩).2).2 =
      (saveItem cardA ⟨Blob.missing, false⟩).2 :=
  saveItem_dedup.1 cardA cardA rfl

/-- C4 counterexample: removing an identifier from the empty store
(where no entry with that identifier exists) returns true, not false,
because `removeItem` returns true whenever the write succeeds. -/
theorem removeItem_absent_counterexample :
    (removeItem "missing-id" ⟨Blob.good [], false⟩).1 = true ∧
    isSaved "missing-id" ⟨Blob.good [], false⟩ = false := by
  decide

/-- C4 amended: `removeItem` returns false exactly when the storage
write throws; when the write succeeds it returns true regardless of
whether the identifier was present, re-serializing the saved list with
every entry of that identifier filtered out; removing an absent
identifier keeps the saved list unchanged (but still returns true). -/
theorem removeItem_returns_write_success (itemId : String) (st : Store) :
    (st.accessThrows = true → removeItem itemId st = (false, st)) ∧
    (st.accessThrows = false →
      (removeItem itemId st).1 = true ∧
      (removeItem itemId st).2 =
        ⟨Blob.good ((getSavedItems st).filter (fun s => s.id != itemId)), false⟩ ∧
      ((∀ x ∈ getSavedItems st, x.id ≠ itemId) →
        getSavedItems (removeItem itemId st).2 = getSavedItems st)) := by
  obtain ⟨blob, acc⟩ := st
  constructor
  · intro h
    subst h
    simp [removeItem]
  · intro h
    subst h
    refine ⟨by simp [removeItem], by simp [removeItem], ?_⟩
    intro habs
    have hfilter : (getSavedItems ⟨blob, false⟩).filter (fun s => s.id != itemId) =
        getSavedItems ⟨blob, false⟩ := by
      apply List.filter_eq_self.mpr
      intro a ha
      simp only [bne_iff_ne, ne_eq]
      exact habs a ha
    have hrem : (removeItem itemId ⟨blob, false⟩).2 =
        ⟨Blob.good ((getSavedItems ⟨blob, false⟩).filter (fun s => s.id != itemId)),
         false⟩ := by
      simp [removeItem]
    have hgood : ∀ L : List SwipeCardData,
        getSavedItems ⟨Blob.good L, false⟩ = L := fun L => rfl
    rw [hrem, hgood, hfilter]

/-- Witness for the amended C4: with storage access throwing, removal
fails and leaves the store unchanged. -/
theorem removeItem_returns_write_success_witness :
    removeItem "missing-id" ⟨Blob.good [], true⟩ = (false, ⟨Blob.good [], true⟩) :=
  (removeItem_returns_write_success "missing-id" ⟨Blob.good [], true⟩).1 rfl

lemma advance_wrap (c : GalleryCursor) (h : c.currentIndex ≥ c.total - 1) :
    c.advance = ({ c with currentIndex := 0 }, true) := by
  unfold GalleryCursor.advance
  rw [if_pos h]

lemma advance_step (c : GalleryCursor) (h : ¬ c.currentIndex ≥ c.total - 1) :
    c.advance = ({ c with currentIndex := c.currentIndex + 1 }, false) := by
  unfold GalleryCursor.advance
  rw [if_neg h]

lemma advanceRun_succ (c : GalleryCursor) (n : ℕ) :
    advanceRun c (n + 1) =
      ((advanceRun c.advance.1 n).1,
       (if c.advance.2 then 1 else 0) + (advanceRun c.advance.1 n).2) := rfl

lemma advanceRun_pass (n : ℕ) : ∀ i total : ℕ, i + n + 1 = total →
    advanceRun ⟨i, total⟩ (n + 1) = (⟨0, total⟩, 1) := by
  induction n with
  | zero =>
    intro i total h
    have hwrap := advance_wrap ⟨i, total⟩ (by simp; omega)
    simp [advanceRun, hwrap]
  | succ n ih =>
    intro i total h
    have hstep := advance_step ⟨i, total⟩ (by simp; omega)
    have hrec := ih (i + 1) total (by omega)
    rw [advanceRun_succ, hstep]
    simp only [Prod.fst, Prod.snd]
    rw [show ({ currentIndex := (⟨i, total⟩ : GalleryCursor).currentIndex + 1,
                total := (⟨i, total⟩ : GalleryCursor).total } : GalleryCursor) =
          ⟨i + 1, total⟩ from rfl]
    rw [hrec]
    simp

/-- C5: with total = 3 starting at index 0, the first two advances step
to 1 and 2 without the exhaustion toast and the third shows it and wraps
to 0; three advances in total show the toast exactly once. In general,
from any index below total, advance computes (index + 1) mod total and
shows the toast precisely at the wrap (index = total - 1), so a full
pass from 0 shows it exactly once. -/
theorem advance_cycle :
    GalleryCursor.advance ⟨0, 3⟩ = (⟨1, 3⟩, false) ∧
    GalleryCursor.advance ⟨1, 3⟩ = (⟨2, 3⟩, false) ∧
    GalleryCursor.advance ⟨2, 3⟩ = (⟨0, 3⟩, true) ∧
    advanceRun ⟨0, 3⟩ 3 = (⟨0, 3⟩, 1) ∧
    (∀ i total : ℕ, i < total →
      (GalleryCursor.advance ⟨i, total⟩).1.currentIndex = (i + 1) % total ∧
      ((GalleryCursor.advance ⟨i, total⟩).2 = true ↔ i = total - 1)) ∧
    (∀ total : ℕ, 1 ≤ total → advanceRun ⟨0, total⟩ total = (⟨0, total⟩, 1)) := by
  refine ⟨by decide, by decide, by decide, by decide, ?_, ?_⟩
  · intro i total hlt
    by_cases htop : i ≥ total - 1
    · have hi : i = total - 1 := by omega
      have hwrap := advance_wrap ⟨i, total⟩ (by simpa using htop)
      rw [hwrap]
      subst hi
      have : total - 1 + 1 = total := by omega
      rw [this, Nat.mod_self]
      simp
    · have hstep := advance_step ⟨i, total⟩ (by simpa using htop)
      rw [hstep]
      have : (i + 1) % total = i + 1 := Nat.mod_eq_of_lt (by omega)
      rw [this]
      constructor
      · rfl
      · simp
        omega
  · intro total h
    obtain ⟨n, rfl⟩ : ∃ n, total = n + 1 := ⟨total - 1, by omega⟩
    exact advanceRun_pass n 0 (n + 1) (by omega)

/-- Witness for C5 at index 1 of a 3-item gallery: no exhaustion toast
and the index moves to (1 + 1) mod 3. -/
theorem advance_cycle_witness :
    (GalleryCursor.advance ⟨1, 3⟩).1.currentIndex = (1 + 1) % 3 ∧
    ((GalleryCursor.advance ⟨1, 3⟩).2 = true ↔ 1 = 3 - 1) :=
  advance_cycle.2.2.2.2.1 1 3 (by norm_num)

/-- C6: on any store whose writes succeed, saving a card and re-reading
the persisted blob makes membership of that identifier true. -/
theorem saveItem_roundtrip (card : SwipeCardData) (st : Store)
    (hw : st.accessThrows = false) :
    isSaved card.id (saveItem card st).2 = true := by
  by_cases hfind : (getSavedItems st).find? (fun s => s.id == card.id) = none
  · have hsave : saveItem card st =
        (true, { st with blob := Blob.good (getSavedItems st ++ [card]) }) := by
      simp [saveItem, hfind, hw]
    rw [hsave]
    have hread : getSavedItems { st with blob := Blob.good (getSavedItems st ++ [card]) } =
        getSavedItems st ++ [card] := by
      simp [getSavedItems, hw]
    simp only [isSaved, hread]
    simp
  · have hsave : saveItem card st = (false, st) := by
      simp [saveItem, Option.isNone_iff_eq_none, hfind]
    rw [hsave]
    obtain ⟨x, hxfind⟩ := Option.ne_none_iff_exists.mp hfind
    have hxl : x ∈ getSavedItems st := List.mem_of_find?_eq_some hxfind.symm
    have hxp : (fun s => s.id == card.id) x = true :=
      @List.find?_some _ (fun s => s.id == card.id) x (getSavedItems st)
        hxfind.symm
    simp only [isSaved, List.any_eq_true]
    exact ⟨x, hxl, by simpa using hxp⟩

/-- Witness for C6: saving the sample card into the empty store and
re-reading storage finds it saved. -/
theorem saveItem_roundtrip_witness :
    isSaved cardA.id (saveItem cardA ⟨Blob.missing, false⟩).2 = true :=
  saveItem_roundtrip cardA ⟨Blob.missing, false⟩ rfl

/-- C7: when storage access throws, the key is missing, or the blob is
unparseable, `getSavedItems` returns the empty list (it is total, so no
exception reaches the caller), and the read operations built on it see
an empty set: membership is false and every category filter is empty. -/
theorem getSavedItems_degrades (st : Store)
    (h : st.accessThrows = true ∨ st.blob = Blob.missing ∨ st.blob = Blob.corrupt) :
    getSavedItems st = [] ∧
    (∀ itemId : String, isSaved itemId st = false) ∧
    (∀ ty : CardType, getSavedByType ty st = []) := by
  have hempty : getSavedItems st = [] := by
    rcases h with h | h | h
    · simp [getSavedItems, h]
    · obtain ⟨blob, acc⟩ := st
      simp at h
      subst h
      cases acc <;> simp [getSavedItems]
    · obtain ⟨blob, acc⟩ := st
      simp at h
      subst h
      cases acc <;> simp [getSavedItems]
  refine ⟨hempty, ?_, ?_⟩
  · intro itemId
    simp [isSaved, hempty]
  · intro ty
    simp [getSavedByType, hempty]

/-- Witness for C7 at a corrupt blob with working storage access. -/
theorem getSavedItems_degrades_witness :
    getSavedItems ⟨Blob.corrupt, false⟩ = [] ∧
    isSaved "deluxe-room-1" ⟨Blob.corrupt, false⟩ = false ∧
    getSavedByType CardType.room ⟨Blob.corrupt, false⟩ = [] :=
  ⟨(getSavedItems_degrades ⟨Blob.corrupt, false⟩ (Or.inr (Or.inr rfl))).1,
   (getSavedItems_degrades ⟨Blob.corrupt, false⟩ (Or.inr (Or.inr rfl))).2.1
     "deluxe-room-1",
   (getSavedItems_degrades ⟨Blob.corrupt, false⟩ (Or.inr (Or.inr rfl))).2.2
     CardType.room⟩

/-- C8: for a gallery with at least one item, both `advance` and `reset`
keep the index inside [0, total); at the wrap the index is exactly 0;
and the progress value (currentIndex + 1) / total lies in (0, 1] (the
rendered value is that fraction scaled to a percentage). -/
theorem cursor_invariant (c : GalleryCursor) (h1 : 1 ≤ c.total)
    (h2 : c.currentIndex < c.total) :
    c.advance.1.currentIndex < c.total ∧
    c.advance.1.total = c.total ∧
    c.reset.currentIndex = 0 ∧
    c.reset.currentIndex < c.total ∧
    (c.currentIndex = c.total - 1 → c.advance.1.currentIndex = 0) ∧
    0 < progressFrac c ∧ progressFrac c ≤ 1 ∧
    progress c = progressFrac c * 100 := by
  have htq : (0 : ℚ) < (c.total : ℚ) := by exact_mod_cast h1
  have hadv : c.advance.1.currentIndex < c.total ∧ c.advance.1.total = c.total ∧
      (c.currentIndex = c.total - 1 → c.advance.1.currentIndex = 0) := by
    by_cases htop : c.currentIndex ≥ c.total - 1
    · rw [advance_wrap c htop]
      exact ⟨by simpa using h1, rfl, fun _ => rfl⟩
    · rw [advance_step c htop]
      refine ⟨by simp; omega, rfl, fun heq => absurd (le_of_eq heq.symm) htop⟩
  refine ⟨hadv.1, hadv.2.1, rfl, by simpa [GalleryCursor.reset] using h1,
    hadv.2.2, ?_, ?_, rfl⟩
  · exact div_pos (by positivity) htq
  · rw [progressFrac, div_le_one htq]
    exact_mod_cast h2

/-- Witness for C8 at the wrap position of a 3-item gallery. -/
theorem cursor_invariant_witness :
    (GalleryCursor.advance ⟨2, 3⟩).1.currentIndex < 3 ∧
    0 < progressFrac ⟨2, 3⟩ ∧ progressFrac ⟨2, 3⟩ ≤ 1 :=
  ⟨(cursor_invariant ⟨2, 3⟩ (by norm_num) (by norm_num)).1,
   (cursor_invariant ⟨2, 3⟩ (by norm_num) (by norm_num)).2.2.2.2.2.1,
   (cursor_invariant ⟨2, 3⟩ (by norm_num) (by norm_num)).2.2.2.2.2.2.1⟩

/-- C9 counterexample: a commit schedules the settle-delay callback,
the gallery unmounts, and the timer then expires — the deferred advance
updater executes once even though the gallery was torn down, because
the component stores no timer handle and registers no `clearTimeout`
cleanup. The claim says it must not execute. -/
theorem pending_advance_fires_after_unmount :
    (runEvents mountedWorld
      [GEvent.commit, GEvent.unmountEvent, GEvent.timerFire]).mounted = false ∧
    (runEvents mountedWorld
      [GEvent.commit, GEvent.unmountEvent, GEvent.timerFire]).advanceExecuted
      = 1 := by
  decide

/-- C9 amended: the deferred advance is not cancellable — unmounting
leaves every pending settle-delay timer scheduled (only the keydown
listener is removed), and an expiring timer executes its advance
updater regardless of the mounted flag. -/
theorem pending_advance_not_cancelled (w : GalleryWorld) :
    (stepEvent w GEvent.unmountEvent).pendingTimers = w.pendingTimers ∧
    (stepEvent w GEvent.unmountEvent).keydownListener = false ∧
    (0 < w.pendingTimers →
      (stepEvent w GEvent.timerFire).advanceExecuted = w.advanceExecuted + 1) := by
  refine ⟨rfl, rfl, ?_⟩
  intro h
  unfold stepEvent
  rw [if_pos h]

/-- Witness for the amended C9: after one commit and an unmount, the
single pending timer still fires and runs the advance updater. -/
theorem pending_advance_not_cancelled_witness :
    (stepEvent ⟨false, 1, false, 0⟩ GEvent.timerFire).advanceExecuted = 0 + 1 :=
  (pending_advance_not_cancelled ⟨false, 1, false, 0⟩).2.2 (by norm_num)

/-- C10 counterexample: on a store whose persisted blob is unparseable
(the read path throws inside `getSavedItems` and is caught there) but
whose writes succeed, `saveItem` returns true — not false — and the
persisted content changes from the corrupt blob to the one-card list. -/
theorem saveItem_read_failure :
    (saveItem cardA ⟨Blob.corrupt, false⟩).1 = true ∧
    (saveItem cardA ⟨Blob.corrupt, false⟩).2 ≠ ⟨Blob.corrupt, false⟩ := by
  decide

/-- C10 amended: `saveItem` returns false with the storage unchanged
when the write throws, and equally when the card is already saved — so
a false return alone cannot distinguish the two; but a failing read
alone (corrupt blob, writable storage) degrades to an empty read, and
`saveItem` then returns true and overwrites storage with just the card. -/
theorem saveItem_failure_semantics (card : SwipeCardData) (st : Store) :
    (st.accessThrows = true → saveItem card st = (false, st)) ∧
    (isSaved card.id st = true → saveItem card st = (false, st)) ∧
    (st.blob = Blob.corrupt → st.accessThrows = false →
      saveItem card st = (true, ⟨Blob.good [card], false⟩)) := by
  refine ⟨?_, ?_, ?_⟩
  · intro h
    simp [saveItem, getSavedItems, h]
  · intro h
    obtain ⟨x, hxl, hxp⟩ := List.any_eq_true.mp h
    have hfind : (getSavedItems st).find? (fun s => s.id == card.id) ≠ none := by
      intro hnone
      have := List.find?_eq_none.mp hnone x hxl
      exact this hxp
    simp [saveItem, Option.isNone_iff_eq_none, hfind]
  · intro hb ha
    obtain ⟨blob, acc⟩ := st
    simp at hb ha
    subst hb
    subst ha
    simp [saveItem, getSavedItems]

/-- Witness for the amended C10: with storage access throwing, the save
fails and the store is unchanged. -/
theorem saveItem_failure_semantics_witness :
    saveItem cardA ⟨Blob.missing, true⟩ = (false, ⟨Blob.missing, true⟩) :=
  (saveItem_failure_semantics cardA ⟨Blob.missing, true⟩).1 rfl

/-- Witness for C2 at offset = 150, velocity = 0: the commit-regime
direction rule instantiated at a concrete sample. -/
theorem classify_commit_direction_witness :
    classify 150 0 = Decision.commitRight ↔ ((150 : ℚ) > 0 ∨ (0 : ℚ) > 0) :=
  (classify_commit_direction.1 150 0 (by norm_num [SWIPE_THRESHOLD])).1
